import Mathlib

/-
  Verification of the actioncam repository (github.com/jonas-koeritz/actioncam).

  Shallow embedding of the Go sources:
    - protocol.go / libipcamera/Protocol section: CreatePacket, CreateCommandHeader,
      CreateCommandPacket, CreateLoginPacket;
    - libipcamera/Camera.go: the receive loop (handleConnection), the handler table
      (addHandler / Handle / HandleFirst), Login, the command operations and
      parseFileList;
    - libipcamera/RTPRelay.go (the context-based version at the top of the file):
      handleCameraStream, the UDP fragment reassembly loop;
    - ipcamera/listener.go: the earlier fragment reassembly loop;
    - rtsp server (handleRequest): the SETUP transport-header parsing.

  Bytes are modelled as natural numbers (each < 256 where produced by the code);
  Go strings on the parsing side are modelled as lists of characters, and Go's
  fixed-width integers as naturals with explicit reductions mod 2^16 / 2^32 at
  the points where the Go code truncates.  Fallible Go code (panics) is modelled
  with Option, `none` standing for a panic.
-/

/-! ## Byte-level helpers -/

/-- Big-endian byte serialisation of the low `k` bytes of `v`; models
`bitio.Writer.WriteBits(v, 8*k)` and `binary.Write(..., binary.BigEndian, v)`
on a `k`-byte unsigned integer. -/
def beBytes : Nat → Nat → List Nat
  | 0, _ => []
  | k + 1, v => beBytes k (v / 256) ++ [v % 256]

/-- Big-endian byte decoding, models `binary.Read(..., binary.BigEndian, ...)`
of an unsigned field. -/
def decodeBE (l : List Nat) : Nat :=
  l.foldl (fun a b => a * 256 + b) 0

/-- Little-endian 32-bit read of the first four bytes, models
`binary.LittleEndian.Uint32`. -/
def le32 (l : List Nat) : Nat :=
  l.getD 0 0 + 256 * (l.getD 1 0 + 256 * (l.getD 2 0 + 256 * l.getD 3 0))

/-! ## Frame codec (protocol.go) -/

/-- Header is an ipcamera protocol message header (protocol.go): Magic uint16,
Length uint16, MessageType uint32, all modelled as Nat. -/
structure Header where
  magic : Nat
  length : Nat
  messageType : Nat
deriving DecidableEq

/-- CreatePacket (protocol.go:24-35): recomputes the Length field as
`(uint16)(len(payload))` and serialises Magic (16 bits), Length (16 bits),
MessageType (32 bits) big-endian followed by the raw payload.  The `uint16`
cast is reflected by `beBytes 2` keeping only the low 16 bits. -/
def CreatePacket (h : Header) (payload : List Nat) : List Nat :=
  beBytes 2 h.magic ++ beBytes 2 payload.length ++ beBytes 4 h.messageType ++ payload

/-- CreateCommandHeader (protocol.go:37-44). -/
def CreateCommandHeader (command : Nat) : Header :=
  ⟨0xABCD, 0, command⟩

/-- CreateCommandPacket (protocol.go:56-60). -/
def CreateCommandPacket (command : Nat) : List Nat :=
  CreatePacket (CreateCommandHeader command) []

/-- Go's built-in `copy(dst, src)`: copies `min |dst| |src|` bytes of `src`
over the prefix of `dst`, leaving the rest of `dst` unchanged. -/
def goCopy (dst src : List Nat) : List Nat :=
  src.take dst.length ++ dst.drop (min dst.length src.length)

/-- The 128-byte login payload of CreateLoginPacket (protocol.go:46-54):
`payload := make([]byte, 128); copy(payload, username); copy(payload[64:], password)`.
Note the first copy has the whole 128-byte slice as destination. -/
def loginPayloadBytes (u p : List Nat) : List Nat :=
  let base := goCopy (List.replicate 128 0) u
  base.take 64 ++ goCopy (base.drop 64) p

/-- CreateLoginPacket (protocol.go:46-54). -/
def CreateLoginPacket (u p : List Nat) : List Nat :=
  CreatePacket (CreateCommandHeader 0x0110) (loginPayloadBytes u p)

/-- The header+payload read of handleConnection (Camera.go:134-159):
`binary.Read` of the three big-endian header fields followed by reading
exactly `Length` payload bytes; a short read is a framing error (`none`). -/
def decodePacket (bytes : List Nat) : Option (Header × List Nat) :=
  if bytes.length < 8 then none
  else
    let magic := decodeBE (bytes.take 2)
    let len := decodeBE ((bytes.drop 2).take 2)
    let mtype := decodeBE ((bytes.drop 4).take 4)
    let rest := bytes.drop 8
    if rest.length < len then none
    else some (⟨magic, len, mtype⟩, rest.take len)

/-! ## File-list parsing (Camera.go:255-272) -/

/-- Go `strings.Split` with a one-character separator: splits around every
occurrence of the separator; always returns at least one (possibly empty)
segment. -/
def splitOnChar (sep : Char) : List Char → List (List Char)
  | [] => [[]]
  | c :: cs =>
    if c = sep then [] :: splitOnChar sep cs
    else
      match splitOnChar sep cs with
      | [] => [[c]]
      | g :: gs => (c :: g) :: gs

/-- Go `strconv.ParseUint(s, 10, 64)`: no sign allowed, decimal digits only,
nonempty, and the value must fit in 64 bits; `none` models a non-nil error. -/
def parseUintDec64 (s : List Char) : Option Nat :=
  if s = [] then none
  else if s.all Char.isDigit then
    let v := s.foldl (fun a d => a * 10 + (d.toNat - 48)) 0
    if v < 2 ^ 64 then some v else none
  else none

/-- StoredFile (Camera.go:57-61): a file stored on the camera's sd-card. -/
structure StoredFile where
  Path : List Char
  Size : Nat
deriving DecidableEq

/-- The per-segment test of parseFileList (Camera.go:259-268): the segment must
split on a colon into exactly a path and a size, the size must parse with a
nil error and be positive, and the path must be nonempty; exactly then the
slot is assigned. -/
def segEntry (file : List Char) : Option StoredFile :=
  match splitOnChar ':' file with
  | [p, szs] =>
    match parseUintDec64 szs with
    | some v => if 0 < v ∧ p ≠ [] then some ⟨p, v⟩ else none
    | none => none
  | _ => none

/-- The assignment loop of parseFileList (Camera.go:258-270): iterates over all
split segments with index `i`, writing into a slice of length `bound`
(`len(files)-1`); an assignment at an index outside the slice is Go's
index-out-of-range panic, modelled as `none`. -/
def fillEntries (bound : Nat) : Nat → List (List Char) → List StoredFile → Option (List StoredFile)
  | _, [], acc => some acc
  | i, f :: fs, acc =>
    match segEntry f with
    | some e => if i < bound then fillEntries bound (i + 1) fs (acc.set i e) else none
    | none => fillEntries bound (i + 1) fs acc

/-- parseFileList (Camera.go:255-272): split the listing on `;`, allocate a
result slice one shorter than the number of segments, and assign parsed
entries at their original indices.  `none` models the panic for a parseable
final segment. -/
def parseFileList (input : List Char) : Option (List StoredFile) :=
  let files := splitOnChar ';' input
  fillEntries (files.length - 1) 0 files (List.replicate (files.length - 1) ⟨[], 0⟩)

/-! ## RTSP SETUP transport parsing (rtsp server, handleRequest) -/

/-- Go `strconv.ParseInt(s, 10, 32)`: optional sign, decimal digits, value
within the signed 32-bit range. -/
def parseIntDec32 (s : List Char) : Option Int :=
  match s with
  | [] => none
  | c :: rest =>
    let neg := c = '-'
    let digits := if c = '-' ∨ c = '+' then rest else s
    if digits = [] then none
    else if digits.all Char.isDigit then
      let v : Nat := digits.foldl (fun a d => a * 10 + (d.toNat - 48)) 0
      let iv : Int := if neg then -(v : Int) else (v : Int)
      if -(2 ^ 31) ≤ iv ∧ iv ≤ 2 ^ 31 - 1 then some iv else none
    else none

/-- Outcome of the SETUP branch of handleRequest for a given Transport header
value: `panicked` models the Go index-out-of-range panic, `dropped` the
log-and-return path with no response written, `responded` the 200 reply. -/
inductive SetupOutcome where
  | panicked
  | dropped
  | responded (port : Int)
deriving DecidableEq

/-- The SETUP branch of the rtsp server's handleRequest: split the Transport
header value on `;`, take the last piece, index `[1]` of its split on `=`
(panics when there is no `=`), then parse the part before `-` as a 32-bit
integer; a parse error is logged and the request dropped with no response.
A missing Transport header reads as the empty string from the Go header map. -/
def setupOutcome (transport : List Char) : SetupOutcome :=
  let rtpDesc := (splitOnChar ';' transport).getLastD []
  match splitOnChar '=' rtpDesc with
  | [] => SetupOutcome.panicked
  | [_] => SetupOutcome.panicked
  | _ :: v :: _ =>
    match parseIntDec32 ((splitOnChar '-' v).headD []) with
    | some port => SetupOutcome.responded port
    | none => SetupOutcome.dropped

/-! ## Camera control session (Camera.go) -/

/-- Message handler behaviour, abstracting the Go closures by what the
receive loop observes of them.  `stdh remove err` is a handler that always
returns the fixed pair `(remove, err)` with no other observable effect;
`loginh` is the closure registered by Login (Camera.go:100-107), which runs
loginResultHandler (Camera.go:420-429) and then signals the `loginAccept`
channel exactly when no error was returned. -/
inductive HKind where
  | stdh (remove : Bool) (err : Bool)
  | loginh
deriving DecidableEq

/-- A registered handler: an identifier (to observe invocation order) plus its
behaviour. -/
structure Handler where
  hid : Nat
  kind : HKind
deriving DecidableEq

/-- What one invocation of a handler returns and does, as a function of the
message type it was handed: whether it asks to be removed, whether it returns
a non-nil error, whether it sets `isLoggedIn`, and whether it signals the
login-accept channel. -/
structure HResult where
  remove : Bool
  err : Bool
  setLogin : Bool
  accept : Bool
deriving DecidableEq

/-- Behaviour of each handler kind.  For `loginh` this is the closure of
Camera.go:100-107 composed with loginResultHandler: on message type 0x0111 it
sets the login flag and signals acceptance; on 0x1234 it returns the
already-connected error (and does not signal); on any other type it signals
acceptance with no error.  All paths ask for removal. -/
def handlerRun : HKind → Nat → HResult
  | HKind.stdh r e, _ => ⟨r, e, false, false⟩
  | HKind.loginh, t =>
    if t = 0x0111 then ⟨true, false, true, true⟩
    else if t = 0x1234 then ⟨true, true, false, false⟩
    else ⟨true, false, false, true⟩

/-- Result of dispatching one message to the handler list of its type. -/
structure DispatchResult where
  table : List Handler
  login : Bool
  fired : List Nat
  accept : Bool
deriving DecidableEq

/-- The dispatch loop of handleConnection (Camera.go:172-186): run the
handlers in order, keeping those that return KeepHandler; a handler returning
a non-nil error breaks out of the loop, so the handlers after it are neither
invoked nor carried over into the remaining-handler list. -/
def runHandlers (login : Bool) (t : Nat) : List Handler → DispatchResult
  | [] => ⟨[], login, [], false⟩
  | h :: hs =>
    let r := handlerRun h.kind t
    let login1 := login || r.setLogin
    if r.err then ⟨if r.remove then [] else [h], login1, [h.hid], r.accept⟩
    else
      let d := runHandlers login1 t hs
      ⟨if r.remove then d.table else h :: d.table, d.login, h.hid :: d.fired, r.accept || d.accept⟩

/-- Handle (Camera.go:192-195) via addHandler with prepend=false: append. -/
def Handle (h : Handler) (l : List Handler) : List Handler := l ++ [h]

/-- HandleFirst (Camera.go:197-201) via addHandler with prepend=true: prepend. -/
def HandleFirst (h : Handler) (l : List Handler) : List Handler := h :: l

/-- A message as seen by the receive loop: the decoded header's magic and
message type, plus the payload. -/
structure Message where
  magic : Nat
  mtype : Nat
  payload : List Nat
deriving DecidableEq

/-- The camera session state the receive loop touches: the login flag and the
handler table keyed by message type (Camera.go:16-27). -/
structure CamState where
  isLoggedIn : Bool
  table : List (Nat × List Handler)
deriving DecidableEq

/-- Lookup in the handler table; a missing key reads as the empty list, like a
Go map of slices. -/
def getHandlers (tbl : List (Nat × List Handler)) (t : Nat) : List Handler :=
  match tbl.find? (fun e => e.1 = t) with
  | some e => e.2
  | none => []

/-- Store a handler list under a message type (Go map assignment). -/
def setHandlers (tbl : List (Nat × List Handler)) (t : Nat) (l : List Handler) :
    List (Nat × List Handler) :=
  if tbl.any (fun e => e.1 = t) then
    tbl.map (fun e => if e.1 = t then (t, l) else e)
  else tbl ++ [(t, l)]

/-- One iteration of handleConnection past the magic check (Camera.go:161-186):
if no handler is registered for the type the message is dumped and the state
unchanged; otherwise all registered handlers run and the table is replaced by
the remaining handlers.  Also returns the fired handler ids in order and
whether the login-accept channel was signalled. -/
def stepCam (s : CamState) (m : Message) : CamState × List Nat × Bool :=
  let hs := getHandlers s.table m.mtype
  if hs = [] then (s, [], false)
  else
    let d := runHandlers s.isLoggedIn m.mtype hs
    (⟨d.login, setHandlers s.table m.mtype d.table⟩, d.fired, d.accept)

/-- The receive loop of handleConnection (Camera.go:129-190) over a list of
decoded incoming frames: a frame whose magic is not 0xABCD terminates the
loop, so no handler runs for it and no later frame is processed. -/
def runCam : CamState → List Message → CamState × List Nat × Bool
  | s, [] => (s, [], false)
  | s, m :: ms =>
    if m.magic ≠ 0xABCD then (s, [], false)
    else
      let r1 := stepCam s m
      let r2 := runCam r1.1 ms
      (r2.1, r1.2.1 ++ r2.2.1, r1.2.2 || r2.2.2)

/-- The handler Login registers for LOGIN_ACCEPT (Camera.go:100-107). -/
def loginHandler : Handler := ⟨0, HKind.loginh⟩

/-- Camera state right after Login has registered its handler on a fresh
session: not logged in, the login closure registered under message type
LOGIN_ACCEPT = 0x0111. -/
def loginInitState : CamState := ⟨false, [(0x0111, [loginHandler])]⟩

/-- The error text of Camera.go:116. -/
def loginTimedOutMsg : String := "Login request timed out"

/-- The error text of the isLoggedIn guards (Camera.go:277 etc.). -/
def loginRequiredMsg : String := "Camera Login required"

/-- The value Login (Camera.go:97-118) returns as a function of the frames the
receive loop processes before the 5-second timeout: `none` (a nil error) when
the login-accept channel was signalled, otherwise the timeout error.  These
are the only two return paths in the Go code. -/
def LoginOutcome (msgs : List Message) : Option String :=
  if (runCam loginInitState msgs).2.2 then none else some loginTimedOutMsg

/-! ## Command operations (Camera.go) -/

/-- TakePicture (Camera.go:305-328): the guard and the packet it writes to the
connection before blocking for the response; an `Except.error` is an immediate
return with nothing sent. -/
def TakePicture (loggedIn : Bool) : Except String (List Nat) :=
  if !loggedIn then Except.error loginRequiredMsg
  else Except.ok (CreateCommandPacket 0xA038)

/-- StartRecording (Camera.go:340-365): guard plus the CONTROL_RECORDING
packet with the start flag. -/
def StartRecording (loggedIn : Bool) : Except String (List Nat) :=
  if !loggedIn then Except.error loginRequiredMsg
  else Except.ok (CreatePacket (CreateCommandHeader 0xA03A) [1, 0, 0, 0])

/-- StopRecording (Camera.go:368-393): guard plus the CONTROL_RECORDING packet
with the stop flag. -/
def StopRecording (loggedIn : Bool) : Except String (List Nat) :=
  if !loggedIn then Except.error loginRequiredMsg
  else Except.ok (CreatePacket (CreateCommandHeader 0xA03A) [0, 0, 0, 0])

/-- GetFirmwareInfo (Camera.go:275-296): guard plus the
REQUEST_FIRMWARE_INFO packet. -/
def GetFirmwareInfo (loggedIn : Bool) : Except String (List Nat) :=
  if !loggedIn then Except.error loginRequiredMsg
  else Except.ok (CreateCommandPacket 0xA034)

/-- StartPreviewStream (Camera.go:331-337): guard plus the START_PREVIEW
packet. -/
def StartPreviewStream (loggedIn : Bool) : Except String (List Nat) :=
  if !loggedIn then Except.error loginRequiredMsg
  else Except.ok (CreateCommandPacket 0x01FF)

/-- GetFileList (Camera.go:227-253): registers its handler and sends the
REQUEST_FILE_LIST packet; the Go body contains no isLoggedIn guard, so the
packet is sent whatever the login state. -/
def GetFileList (_loggedIn : Bool) : Except String (List Nat) :=
  Except.ok (CreatePacket (CreateCommandHeader 0xA025) [1, 0, 0, 0])

/-! ## Media relay (libipcamera/RTPRelay.go, context-based version) -/

/-- A decoded fragment-stream frame (StreamHeader of protocol.go:17-22 plus
payload): Magic, SequenceNumber and MessageType, the Length being the payload
length. -/
structure SFrame where
  magic : Nat
  seqNo : Nat
  mtype : Nat
  payload : List Nat
deriving DecidableEq

/-- The mutable state of handleCameraStream (RTPRelay.go:68-72):
sequenceNumber (uint16), elapsed (uint32), frameBuffer and packetBuffer. -/
structure RState where
  seq : Nat
  elapsed : Nat
  frameBuf : List Nat
  packetBuf : List Nat
deriving DecidableEq

/-- Fresh relay state: zero counters, empty buffers. -/
def relayFresh : RState := ⟨0, 0, [], []⟩

/-- The message-type switch of RTPRelay.go:111-136.  Type 1 (H.264 data)
appends to the frame buffer; type 2 (time boundary) sends
`packetBuffer ++ frameBuffer`, then prepares the next packet header in the
packet buffer from the pre-incremented sequence number and the previous
elapsed value scaled by 90, clears the frame buffer, increments the sequence
number and only then reads the new elapsed value from payload bytes 12-15.
Reading the elapsed counter of a payload shorter than 16 bytes is a Go slice
panic, modelled as `none`.  Other types are logged and ignored. -/
def relayStep (s : RState) (f : SFrame) : Option (RState × List (List Nat)) :=
  match f.mtype with
  | 1 => some (⟨s.seq, s.elapsed, s.frameBuf ++ f.payload, s.packetBuf⟩, [])
  | 2 =>
    if f.payload.length < 16 then none
    else
      some (⟨(s.seq + 1) % 65536, le32 (f.payload.drop 12), [],
             [0x80, 0x63] ++ beBytes 2 (s.seq + 1) ++ beBytes 4 (s.elapsed * 90) ++ beBytes 8 0⟩,
            [s.packetBuf ++ s.frameBuf])
  | _ => some (s, [])

/-- The receive loop of RTPRelay.go:73-138 over a list of datagrams already
split into frames.  The bad-magic and short-payload `break` statements sit
inside the `select` block, so in Go they only leave the select: the loop
continues with the next datagram.  A datagram whose declared payload exceeds
the 2040 bytes available after the header in the 2048-byte read buffer fails
its `io.ReadFull` the same way.  Returns the emitted outbound packets in
order and the final state; `none` propagates a panic. -/
def runRelay : RState → List SFrame → Option (List (List Nat) × RState)
  | s, [] => some ([], s)
  | s, f :: fs =>
    if f.magic ≠ 0xBCDE then runRelay s fs
    else if 2040 < f.payload.length then runRelay s fs
    else
      match relayStep s f with
      | none => none
      | some (s1, out) =>
        match runRelay s1 fs with
        | none => none
        | some (outs, s2) => some (out ++ outs, s2)

/-! ## Legacy stream listener (ipcamera/listener.go) -/

/-- The mutable state of the listener loop (listener.go:47-50). -/
structure LState where
  seq : Nat
  elapsed : Nat
  frameBuf : List Nat
deriving DecidableEq

/-- Fresh listener state. -/
def listenerFresh : LState := ⟨0, 0, []⟩

/-- The message-type switch of listener.go:72-90: a boundary frame emits the
fixed marker, the not-yet-incremented sequence number, the previous elapsed
value scaled by 90 and the zero trailer followed by the accumulated frame
bytes, then increments the sequence number and reads the new elapsed value. -/
def listenerStep (s : LState) (f : SFrame) : Option (LState × List (List Nat)) :=
  match f.mtype with
  | 1 => some (⟨s.seq, s.elapsed, s.frameBuf ++ f.payload⟩, [])
  | 2 =>
    if f.payload.length < 16 then none
    else
      some (⟨(s.seq + 1) % 65536, le32 (f.payload.drop 12), []⟩,
            [[0x80, 0x63] ++ beBytes 2 s.seq ++ beBytes 4 (s.elapsed * 90) ++ beBytes 8 0 ++ s.frameBuf])
  | _ => some (s, [])

/-- The receive loop of listener.go:52-94: here the bad-magic and read-error
`break` statements are directly inside the `for`, so they terminate the
loop. -/
def runListener : LState → List SFrame → Option (List (List Nat) × LState)
  | s, [] => some ([], s)
  | s, f :: fs =>
    if f.magic ≠ 0xBCDE then some ([], s)
    else if 2040 < f.payload.length then some ([], s)
    else
      match listenerStep s f with
      | none => none
      | some (s1, out) =>
        match runListener s1 fs with
        | none => none
        | some (outs, s2) => some (out ++ outs, s2)

/-! ## Derived definitions used by the statements -/

/-- Whether the dispatch loop keeps a handler when a message of type `t` is
processed (it keeps exactly the handlers returning KeepHandler). -/
def keepAfter (t : Nat) (h : Handler) : Bool :=
  !(handlerRun h.kind t).remove

/-- The handler list for type `t` after `n` consecutive messages of type `t`
have been dispatched (no-error runs). -/
def roundsN (t : Nat) (l : List Handler) : Nat → List Handler
  | 0 => l
  | n + 1 => (runHandlers false t (roundsN t l n)).table

/-- The concatenated fired handler ids over `n` consecutive messages of
type `t`. -/
def firedN (t : Nat) (l : List Handler) : Nat → List Nat
  | 0 => []
  | n + 1 => firedN t l n ++ (runHandlers false t (roundsN t l n)).fired

/-- A fragment-stream data frame (message type 1) carrying `d`. -/
def dataFrame (d : List Nat) : SFrame := ⟨0xBCDE, 0, 1, d⟩

/-- A fragment-stream boundary frame (message type 2) whose payload bytes
12-15 hold the little-endian elapsed counter 100. -/
def boundaryFrame100 : SFrame := ⟨0xBCDE, 1, 2, List.replicate 12 0 ++ [100, 0, 0, 0]⟩

/-- The RTP packet layout the specification describes: fixed 2-byte marker,
big-endian 16-bit sequence number, big-endian 32-bit timestamp, 8-byte zero
trailer, then the frame data. -/
def rtpPacket (seq ts : Nat) (data : List Nat) : List Nat :=
  [0x80, 0x63] ++ beBytes 2 seq ++ beBytes 4 ts ++ beBytes 8 0 ++ data

/-! ## Theorems -/

/-- C1 (amended): takePicture, startRecording, stopRecording,
requestFirmwareInfo and startPreview fail immediately with the
login-required error and send nothing when the session is not logged in, but
requestFileList has no login guard: it sends the REQUEST_FILE_LIST packet in
every login state. -/
theorem c1_command_login_guards :
    TakePicture false = Except.error loginRequiredMsg
    ∧ StartRecording false = Except.error loginRequiredMsg
    ∧ StopRecording false = Except.error loginRequiredMsg
    ∧ GetFirmwareInfo false = Except.error loginRequiredMsg
    ∧ StartPreviewStream false = Except.error loginRequiredMsg
    ∧ ∀ b : Bool, GetFileList b
        = Except.ok (CreatePacket (CreateCommandHeader 0xA025) [1, 0, 0, 0]) :=
  ⟨rfl, rfl, rfl, rfl, rfl, fun _ => rfl⟩

/-- C1 counterexample: on a session that is not logged in, requestFileList
does not fail with the NotLoggedIn error; it sends the file-list request
packet. -/
theorem c1_fileList_sends_when_logged_out :
    GetFileList false = Except.ok [0xAB, 0xCD, 0x00, 0x04, 0x00, 0x00, 0xA0, 0x25, 1, 0, 0, 0]
    ∧ GetFileList false ≠ Except.error loginRequiredMsg := by
  constructor
  · rfl
  · intro h
    simp [GetFileList] at h

/-- C4 (amended): a control-channel frame whose magic is not 0xABCD terminates
the receive loop with no handler dispatched and no later frame processed, and
likewise a bad-magic datagram terminates the legacy listener loop; but the
relay loop of RTPRelay.go merely skips the bad datagram and continues with
the remaining traffic, because its break only leaves the enclosing select
block. -/
theorem c4_magic_mismatch :
    (∀ (s : CamState) (m : Message) (ms : List Message),
      m.magic ≠ 0xABCD → runCam s (m :: ms) = (s, [], false))
    ∧ (∀ (s : LState) (f : SFrame) (fs : List SFrame),
      f.magic ≠ 0xBCDE → runListener s (f :: fs) = some ([], s))
    ∧ (∀ (s : RState) (f : SFrame) (fs : List SFrame),
      f.magic ≠ 0xBCDE → runRelay s (f :: fs) = runRelay s fs) := by
  refine ⟨fun s m ms h => ?_, fun s f fs h => ?_, fun s f fs h => ?_⟩
  · simp [runCam, h]
  · simp [runListener, h]
  · simp [runRelay, h]

/-- C4 witness: the three parts of the magic-mismatch theorem at concrete
zero-magic frames. -/
theorem c4_magic_mismatch_witness :
    runCam ⟨false, []⟩ [⟨0, 0, []⟩] = (⟨false, []⟩, [], false)
    ∧ runListener listenerFresh [⟨0, 0, 1, []⟩] = some ([], listenerFresh)
    ∧ runRelay relayFresh [⟨0, 0, 1, []⟩] = runRelay relayFresh [] :=
  ⟨c4_magic_mismatch.1 _ _ _ (by decide),
   c4_magic_mismatch.2.1 _ _ _ (by decide),
   c4_magic_mismatch.2.2 _ _ _ (by decide)⟩

/-- C4 counterexample: after a datagram with magic 0xDEAD, the relay loop
still processes the following good datagram (its payload lands in the frame
buffer), so the receive loop did not terminate at the bad frame. -/
theorem c4_relay_continues_after_bad_magic :
    runRelay relayFresh [⟨0xDEAD, 0, 1, [7]⟩, ⟨0xBCDE, 0, 1, [7]⟩]
      = some ([], ⟨0, 0, [7], []⟩) := by decide

/-- C5 (amended): Login returns nil exactly when the login-accept channel is
signalled and otherwise returns the timeout error; those are its only two
outcomes.  A rejection message (type 0x1234) is keyed differently from the
LOGIN_ACCEPT type 0x0111 that the login handler is registered under, so it
dispatches to no handler and leaves the session unchanged, while an accept
message signals the channel and Login returns nil. -/
theorem c5_login_outcomes :
    (∀ msgs : List Message,
      LoginOutcome msgs = none ∨ LoginOutcome msgs = some loginTimedOutMsg)
    ∧ (∀ pl : List Nat, stepCam loginInitState ⟨0xABCD, 0x1234, pl⟩ = (loginInitState, [], false))
    ∧ (∀ pl : List Nat, LoginOutcome [⟨0xABCD, 0x0111, pl⟩] = none) := by
  refine ⟨fun msgs => ?_, fun pl => rfl, fun pl => rfl⟩
  unfold LoginOutcome
  by_cases h : (runCam loginInitState msgs).2.2 <;> simp [h]

/-- C5 counterexample: when the camera signals rejection (message type
0x1234), Login still returns the timeout error, not a rejection error. -/
theorem c5_rejection_yields_timeout :
    LoginOutcome [⟨0xABCD, 0x1234, []⟩] = some loginTimedOutMsg := rfl

/-- C9 (amended): in the SETUP branch, a transport value whose last
semicolon-segment contains no equals sign (including the empty string read
for a missing Transport header) hits an index-out-of-range panic rather than
being logged and dropped; only a value with an equals sign whose port fails
integer parsing is logged and dropped without a response, and a well-formed
port range is answered. -/
theorem c9_setup_transport :
    (∀ t : List Char,
      (splitOnChar '=' ((splitOnChar ';' t).getLastD [])).length = 1 →
        setupOutcome t = SetupOutcome.panicked)
    ∧ (∀ (t v : List Char) (p : List Char) (rest : List (List Char)),
      splitOnChar '=' ((splitOnChar ';' t).getLastD []) = p :: v :: rest →
        parseIntDec32 ((splitOnChar '-' v).headD []) = none →
          setupOutcome t = SetupOutcome.dropped)
    ∧ setupOutcome [] = SetupOutcome.panicked
    ∧ setupOutcome (String.toList "RTP/AVP;unicast;client_port=abc-5001") = SetupOutcome.dropped
    ∧ setupOutcome (String.toList "RTP/AVP;unicast;client_port=5000-5001")
        = SetupOutcome.responded 5000 := by
  refine ⟨fun t h => ?_, fun t v p rest hL hp => ?_, by decide, by decide, by decide⟩
  · dsimp only [setupOutcome]
    cases hL : splitOnChar '=' ((splitOnChar ';' t).getLastD []) with
    | nil => rfl
    | cons a tl =>
      cases tl with
      | nil => rfl
      | cons b tl2 => rw [hL] at h; simp at h
  · dsimp only [setupOutcome]
    rw [hL]
    simp only [hp]

/-- C9 witness: a transport value carrying an equals sign but a non-numeric
port is dropped without a response. -/
theorem c9_setup_transport_witness :
    setupOutcome (String.toList "client_port=zz-1") = SetupOutcome.dropped :=
  c9_setup_transport.2.1 (String.toList "client_port=zz-1")
    (String.toList "zz-1") (String.toList "client_port") [] (by decide) (by decide)

/-- C9 counterexample: with the Transport header missing, the header map
yields the empty string and the SETUP handling panics with an
index-out-of-range error instead of logging and dropping the request. -/
theorem c9_missing_transport_panics :
    setupOutcome [] = SetupOutcome.panicked ∧ setupOutcome [] ≠ SetupOutcome.dropped := by
  decide

/-- C3 (amended): from a fresh relay, one data fragment of N bytes followed by
one boundary fragment with elapsed = 100 produces exactly one outbound
packet, and that packet consists solely of the N data bytes: the RTP header
is only written into the packet buffer after the emission, carrying the
pre-incremented sequence number 1 and the timestamp 0 (the elapsed value in
force before the boundary, scaled by 90); the elapsed value 100 only takes
effect from the next boundary on.  The legacy listener emits one packet
whose header carries sequence number 0 (incremented only afterwards) and
timestamp 0 followed by the N data bytes. -/
theorem c3_first_emission (d : List Nat) (hd : d.length ≤ 2040) :
    runRelay relayFresh [dataFrame d, boundaryFrame100]
      = some ([d], ⟨1, 100, [], rtpPacket 1 0 []⟩)
    ∧ runListener listenerFresh [dataFrame d, boundaryFrame100]
      = some ([rtpPacket 0 0 d], ⟨1, 100, []⟩) := by
  have h1 : ¬(2040 < d.length) := by omega
  constructor
  · simp [runRelay, relayStep, dataFrame, boundaryFrame100, relayFresh, h1, le32,
      rtpPacket, beBytes]
  · simp [runListener, listenerStep, dataFrame, boundaryFrame100, listenerFresh, h1, le32,
      rtpPacket, beBytes]

/-- C3 witness: the first-emission theorem at the one-byte data fragment
0xAB. -/
theorem c3_first_emission_witness :
    runRelay relayFresh [dataFrame [0xAB], boundaryFrame100]
      = some ([[0xAB]], ⟨1, 100, [], rtpPacket 1 0 []⟩)
    ∧ runListener listenerFresh [dataFrame [0xAB], boundaryFrame100]
      = some ([rtpPacket 0 0 [0xAB]], ⟨1, 100, []⟩) :=
  c3_first_emission [0xAB] (by decide)

/-- C3 counterexample: for the one-byte data fragment 0xAA, the single packet
the relay emits is just that byte; it is not a packet whose sequence-number
field is 1, whose timestamp field is 9000 and whose trailing bytes are the
data. -/
theorem c3_no_header_on_first_packet :
    (runRelay relayFresh [dataFrame [0xAA], boundaryFrame100]).map Prod.fst
      = some [[0xAA]]
    ∧ [0xAA] ≠ rtpPacket 1 9000 [0xAA] := by decide

/-- Serialising `k` bytes yields `k` bytes. -/
theorem beBytes_length (k v : Nat) : (beBytes k v).length = k := by
  induction k generalizing v with
  | zero => rfl
  | succ k ih => simp [beBytes, ih]

/-- Decoding after appending one byte multiplies by the base and adds. -/
theorem decodeBE_append_one (l : List Nat) (b : Nat) :
    decodeBE (l ++ [b]) = decodeBE l * 256 + b := by
  simp [decodeBE, List.foldl_append]

/-- Big-endian decode is a left inverse of big-endian encode up to the width:
the value comes back reduced modulo 256^k, the reduction Go's fixed-width
casts perform. -/
theorem decodeBE_beBytes (k v : Nat) : decodeBE (beBytes k v) = v % 256 ^ k := by
  induction k generalizing v with
  | zero => simp [beBytes, decodeBE, Nat.mod_one]
  | succ k ih =>
    rw [beBytes, decodeBE_append_one, ih]
    have h2 : (256 : Nat) ^ (k + 1) = 256 * 256 ^ k := by ring
    rw [h2, Nat.mod_mul]
    ring

/-- Decoding the bytes of CreatePacket recovers the header fields reduced to
their Go widths; the length field is the payload length reduced mod 2^16, and
only that many payload bytes are read back. -/
theorem decodePacket_createPacket (h : Header) (p : List Nat) :
    decodePacket (CreatePacket h p)
      = some (⟨h.magic % 65536, p.length % 65536, h.messageType % 4294967296⟩,
              p.take (p.length % 65536)) := by
  unfold CreatePacket decodePacket
  rw [List.append_assoc, List.append_assoc]
  have hA : (beBytes 2 h.magic).length = 2 := beBytes_length 2 _
  have hB : (beBytes 2 p.length).length = 2 := beBytes_length 2 _
  have hC : (beBytes 4 h.messageType).length = 4 := beBytes_length 4 _
  set A := beBytes 2 h.magic with hAdef
  set B := beBytes 2 p.length with hBdef
  set C := beBytes 4 h.messageType with hCdef
  have hlen : (A ++ (B ++ (C ++ p))).length = 8 + p.length := by
    simp [List.length_append, hA, hB, hC]; omega
  have hd2 : (A ++ (B ++ (C ++ p))).drop 2 = B ++ (C ++ p) := by
    rw [List.drop_append_of_le_length (by omega), ← hA, List.drop_length, List.nil_append]
  have ht2 : (A ++ (B ++ (C ++ p))).take 2 = A := by
    rw [List.take_append_of_le_length (by omega), ← hA, List.take_length]
  have hd4 : (A ++ (B ++ (C ++ p))).drop 4 = C ++ p := by
    have : (4 : Nat) = 2 + 2 := rfl
    rw [this, ← List.drop_drop, hd2, List.drop_append_of_le_length (by omega),
      ← hB, List.drop_length, List.nil_append]
  have hd8 : (A ++ (B ++ (C ++ p))).drop 8 = p := by
    have : (8 : Nat) = 4 + 4 := rfl
    rw [this, ← List.drop_drop, hd4, List.drop_append_of_le_length (by omega),
      ← hC, List.drop_length, List.nil_append]
  have ht24 : ((A ++ (B ++ (C ++ p))).drop 2).take 2 = B := by
    rw [hd2, List.take_append_of_le_length (by omega), ← hB, List.take_length]
  have ht44 : ((A ++ (B ++ (C ++ p))).drop 4).take 4 = C := by
    rw [hd4, List.take_append_of_le_length (by omega), ← hC, List.take_length]
  rw [if_neg (by omega)]
  dsimp only
  rw [ht2, ht24, ht44, hd8, hAdef, hBdef, hCdef, decodeBE_beBytes, decodeBE_beBytes,
    decodeBE_beBytes]
  rw [if_neg (by
    have := Nat.mod_le p.length (256 ^ 2)
    norm_num at this ⊢
    omega)]
  norm_num

/-- C6 (amended): for every header and every payload shorter than 2^16 bytes,
decoding the bytes of encode(header, payload) yields the input header with
its length field replaced by the payload byte count, together with the
original payload; for longer payloads the uint16 cast of the Go length field
truncates, so only the length reduced mod 2^16 is recovered. -/
theorem c6_encode_decode_roundTrip (h : Header) (p : List Nat)
    (hm : h.magic < 65536) (ht : h.messageType < 4294967296) (hp : p.length < 65536) :
    decodePacket (CreatePacket h p) = some (⟨h.magic, p.length, h.messageType⟩, p) := by
  rw [decodePacket_createPacket, Nat.mod_eq_of_lt hm, Nat.mod_eq_of_lt ht,
    Nat.mod_eq_of_lt hp, List.take_length]

/-- C6 witness: the round trip at a concrete command header (its stale length
field 7 being recomputed to 3) and a three-byte payload. -/
theorem c6_encode_decode_roundTrip_witness :
    decodePacket (CreatePacket ⟨0xABCD, 7, 0x0110⟩ [1, 2, 3])
      = some (⟨0xABCD, 3, 0x0110⟩, [1, 2, 3]) :=
  c6_encode_decode_roundTrip ⟨0xABCD, 7, 0x0110⟩ [1, 2, 3]
    (by decide) (by decide) (by decide)

/-- C6 counterexample: a 65536-byte payload encodes with length field 0, so
decoding returns the empty payload, not the original one; the claim's
round-trip equation fails at this input. -/
theorem c6_length_field_truncates :
    decodePacket (CreatePacket ⟨0xABCD, 0, 0x0110⟩ (List.replicate 65536 0))
      = some (⟨0xABCD, 0, 0x0110⟩, [])
    ∧ decodePacket (CreatePacket ⟨0xABCD, 0, 0x0110⟩ (List.replicate 65536 0))
        ≠ some (⟨0xABCD, 65536, 0x0110⟩, List.replicate 65536 0) := by
  have h1 : decodePacket (CreatePacket ⟨0xABCD, 0, 0x0110⟩ (List.replicate 65536 0))
      = some (⟨0xABCD, 0, 0x0110⟩, []) := by
    have hl : (List.replicate 65536 (0 : Nat)).length = 65536 := List.length_replicate _ _
    rw [decodePacket_createPacket, hl]
    norm_num
  refine ⟨h1, ?_⟩
  rw [h1]
  intro hcontra
  have := (Option.some.injEq _ _).mp hcontra
  have hhead : (⟨0xABCD, 0, 0x0110⟩ : Header) = ⟨0xABCD, 65536, 0x0110⟩ :=
    congrArg Prod.fst this
  have : (0 : Nat) = 65536 := congrArg Header.length hhead
  omega

/-- Go's copy never changes the destination length. -/
theorem goCopy_length (d s : List Nat) : (goCopy d s).length = d.length := by
  simp [goCopy, List.length_append, List.length_take, List.length_drop]

/-- Copying into a zero-filled buffer of length n keeps the source prefix and
zero-fills the remainder. -/
theorem goCopy_replicate (n : Nat) (s : List Nat) :
    goCopy (List.replicate n 0) s = s.take n ++ List.replicate (n - min n s.length) 0 := by
  simp [goCopy, List.length_replicate, List.drop_replicate]

/-- C2 (amended): the login payload is always exactly 128 bytes, with bytes
0-63 the username truncated to 64 bytes and null-padded; when the username is
at most 64 bytes the password occupies bytes 64-127 truncated and null-padded
exactly as claimed; but the first Go copy writes the username into the whole
128-byte buffer, so every position of the password region beyond the
password's own length still holds the corresponding username byte whenever
the username reaches past it — a long username does leak into the password
region.  The packet wraps this payload under the LOGIN command header with
length field 128. -/
theorem c2_login_payload_layout (u p : List Nat) :
    (loginPayloadBytes u p).length = 128
    ∧ (loginPayloadBytes u p).take 64 = u.take 64 ++ List.replicate (64 - min 64 u.length) 0
    ∧ (u.length ≤ 64 →
        loginPayloadBytes u p
          = (u ++ List.replicate (64 - u.length) 0)
            ++ (p.take 64 ++ List.replicate (64 - min 64 p.length) 0))
    ∧ (∀ i, 64 ≤ i → i < u.length → i < 128 → p.length ≤ i - 64 →
        (loginPayloadBytes u p).getD i 0 = u.getD i 0)
    ∧ CreateLoginPacket u p
        = beBytes 2 0xABCD ++ beBytes 2 128 ++ beBytes 4 0x0110 ++ loginPayloadBytes u p := by
  have hbl : (goCopy (List.replicate 128 0) u).length = 128 := by
    rw [goCopy_length, List.length_replicate]
  have hdl : ((goCopy (List.replicate 128 0) u).drop 64).length = 64 := by
    rw [List.length_drop, hbl]
  have hbase : goCopy (List.replicate 128 0) u
      = u.take 128 ++ List.replicate (128 - min 128 u.length) 0 := goCopy_replicate 128 u
  have hlen : (loginPayloadBytes u p).length = 128 := by
    simp only [loginPayloadBytes, List.length_append, List.length_take, hbl, goCopy_length, hdl]
    omega
  refine ⟨hlen, ?_, ?_, ?_, ?_⟩
  · simp only [loginPayloadBytes]
    have h1 : (64 : Nat) ≤ ((goCopy (List.replicate 128 0) u).take 64).length := by
      rw [List.length_take, hbl]; omega
    rw [List.take_append_of_le_length h1, List.take_take, Nat.min_self]
    rw [hbase, List.take_append_eq_append_take, List.take_take, List.take_replicate,
      List.length_take]
    have hm : min 64 128 = 64 := by omega
    rw [hm]
    have hc : min (64 - min 128 u.length) (128 - min 128 u.length) = 64 - min 64 u.length := by
      omega
    rw [hc]
  · intro hu
    have hbase64 : goCopy (List.replicate 128 0) u
        = u ++ List.replicate (128 - u.length) 0 := by
      rw [goCopy_replicate 128 u, List.take_of_length_le (by omega)]
      have : min 128 u.length = u.length := by omega
      rw [this]
    have htk : (goCopy (List.replicate 128 0) u).take 64
        = u ++ List.replicate (64 - u.length) 0 := by
      rw [hbase64, List.take_append_eq_append_take, List.take_of_length_le hu,
        List.take_replicate]
      have : min (64 - u.length) (128 - u.length) = 64 - u.length := by omega
      rw [this]
    have hdr : (goCopy (List.replicate 128 0) u).drop 64 = List.replicate 64 0 := by
      rw [hbase64, List.drop_append_eq_append_drop, List.drop_eq_nil_of_le hu,
        List.nil_append, List.drop_replicate]
      have : 128 - u.length - (64 - u.length) = 64 := by omega
      rw [this]
    simp only [loginPayloadBytes]
    rw [htk, hdr, goCopy_replicate 64 p]
  · intro i h64 hiu hi128 hpi
    simp only [loginPayloadBytes, List.getD_eq_getElem?_getD]
    set base := goCopy (List.replicate 128 0) u with hbdef
    have hgc : goCopy (base.drop 64) p = p ++ base.drop (64 + p.length) := by
      simp only [goCopy]
      rw [List.length_drop, hbl]
      have h1 : (128 - 64 : Nat) = 64 := rfl
      rw [h1]
      rw [List.take_of_length_le (by omega)]
      have h2 : min 64 p.length = p.length := by omega
      rw [h2, List.drop_drop]
    rw [List.getElem?_append_right (by rw [List.length_take, hbl]; omega)]
    rw [List.length_take, hbl]
    have hm : min 64 128 = 64 := by omega
    rw [hm, hgc]
    rw [List.getElem?_append_right (by omega)]
    rw [List.getElem?_drop]
    have hidx : 64 + p.length + (i - 64 - p.length) = i := by omega
    rw [hidx, hbase]
    rw [List.getElem?_append_left (by rw [List.length_take]; omega)]
    rw [List.getElem?_take_of_lt hi128]
  · simp only [CreateLoginPacket, CreatePacket, CreateCommandHeader, hlen]

/-- C2 witness: with a 70-byte username of ones and the one-byte password 5,
byte 68 of the payload is the username byte 1, applying the spill conjunct at
index 68. -/
theorem c2_login_payload_layout_witness :
    (loginPayloadBytes (List.replicate 70 1) [5]).getD 68 0
      = (List.replicate 70 1).getD 68 0 :=
  (c2_login_payload_layout (List.replicate 70 1) [5]).2.2.2.1 68
    (by decide) (by decide) (by decide) (by decide)

set_option maxRecDepth 4000 in
/-- C2 counterexample: a 65-byte username of character code 97 and an empty
password put 97 at payload byte 64, which the claim requires to be a null
padding byte of the password region; the username was not truncated to 64
bytes by the encoding. -/
theorem c2_username_spills_into_password_region :
    (loginPayloadBytes (List.replicate 65 97) []).getD 64 0 = 97
    ∧ (loginPayloadBytes (List.replicate 65 97) []).getD 64 0 ≠ 0 := by
  decide

/-- Go's strings.Split never yields an empty list. -/
theorem splitOnChar_ne_nil (sep : Char) (l : List Char) : splitOnChar sep l ≠ [] := by
  induction l with
  | nil => simp [splitOnChar]
  | cons c cs ih =>
    simp only [splitOnChar]
    by_cases h : c = sep
    · simp [h]
    · simp only [h, if_false]
      cases hs : splitOnChar sep cs with
      | nil => simp
      | cons g gs => simp

/-- Unfolding the assignment loop at a parseable segment. -/
theorem fillEntries_cons_some {bound i : Nat} {f : List Char} {fs : List (List Char)}
    {acc : List StoredFile} {e : StoredFile} (h : segEntry f = some e) :
    fillEntries bound i (f :: fs) acc
      = if i < bound then fillEntries bound (i + 1) fs (acc.set i e) else none := by
  simp only [fillEntries, h]

/-- Unfolding the assignment loop at a non-parseable segment. -/
theorem fillEntries_cons_none {bound i : Nat} {f : List Char} {fs : List (List Char)}
    {acc : List StoredFile} (h : segEntry f = none) :
    fillEntries bound i (f :: fs) acc = fillEntries bound (i + 1) fs acc := by
  simp only [fillEntries, h]

/-- When the assignment loop returns, the result keeps the slice length. -/
theorem fillEntries_length {bound : Nat} :
    ∀ {i : Nat} {fs : List (List Char)} {acc l : List StoredFile},
      fillEntries bound i fs acc = some l → l.length = acc.length := by
  intro i fs
  induction fs generalizing i with
  | nil =>
    intro acc l h
    simp only [fillEntries] at h
    cases h
    rfl
  | cons f fs ih =>
    intro acc l h
    cases hseg : segEntry f with
    | some e =>
      rw [fillEntries_cons_some hseg] at h
      by_cases hb : i < bound
      · rw [if_pos hb] at h
        have := ih h
        rwa [List.length_set] at this
      · rw [if_neg hb] at h
        cases h
    | none =>
      rw [fillEntries_cons_none hseg] at h
      exact ih h

/-- The assignment loop never touches slots below its starting index. -/
theorem fillEntries_preserves {bound : Nat} (d : StoredFile) :
    ∀ {i : Nat} {fs : List (List Char)} {acc l : List StoredFile},
      fillEntries bound i fs acc = some l → ∀ k, k < i → l.getD k d = acc.getD k d := by
  intro i fs
  induction fs generalizing i with
  | nil =>
    intro acc l h k hk
    simp only [fillEntries] at h
    cases h
    rfl
  | cons f fs ih =>
    intro acc l h k hk
    cases hseg : segEntry f with
    | some e =>
      rw [fillEntries_cons_some hseg] at h
      by_cases hb : i < bound
      · rw [if_pos hb] at h
        have h2 := ih h k (by omega)
        rw [h2]
        simp only [List.getD_eq_getElem?_getD]
        rw [List.getElem?_set_ne (by omega)]
      · rw [if_neg hb] at h
        cases h
    | none =>
      rw [fillEntries_cons_none hseg] at h
      exact ih h k (by omega)

/-- A slot whose segment does not parse is left at its initial value. -/
theorem fillEntries_placeholder {bound : Nat} (d : StoredFile) :
    ∀ {fs : List (List Char)} {i : Nat} {acc l : List StoredFile},
      fillEntries bound i fs acc = some l →
        ∀ j, j < fs.length → segEntry (fs.getD j []) = none →
          l.getD (i + j) d = acc.getD (i + j) d := by
  intro fs
  induction fs with
  | nil =>
    intro i acc l h j hj hfail
    simp at hj
  | cons f fs ih =>
    intro i acc l h j hj hfail
    cases j with
    | zero =>
      have hf : segEntry f = none := by simpa using hfail
      rw [fillEntries_cons_none hf] at h
      exact fillEntries_preserves d h (i + 0) (by omega)
    | succ j' =>
      have hf : segEntry (fs.getD j' []) = none := by simpa using hfail
      cases hseg : segEntry f with
      | some e =>
        rw [fillEntries_cons_some hseg] at h
        by_cases hb : i < bound
        · rw [if_pos hb] at h
          have h2 := ih h j' (by simpa using hj) hf
          have hidx : i + 1 + j' = i + (j' + 1) := by omega
          rw [hidx] at h2
          rw [h2]
          simp only [List.getD_eq_getElem?_getD]
          rw [List.getElem?_set_ne (by omega)]
        · rw [if_neg hb] at h
          cases h
      | none =>
        rw [fillEntries_cons_none hseg] at h
        have h2 := ih h j' (by simpa using hj) hf
        have hidx : i + 1 + j' = i + (j' + 1) := by omega
        rw [hidx] at h2
        exact h2

/-- A parseable final segment forces the out-of-range write. -/
theorem fillEntries_none_of_last {bound : Nat} :
    ∀ {fs : List (List Char)} {i : Nat} {acc : List StoredFile},
      fs ≠ [] → (segEntry (fs.getLastD [])).isSome → bound + 1 ≤ i + fs.length →
        fillEntries bound i fs acc = none := by
  intro fs
  induction fs with
  | nil => intro i acc hne; exact absurd rfl hne
  | cons f fs ih =>
    intro i acc hne hlast hb
    cases fs with
    | nil =>
      have hf : (segEntry f).isSome := by simpa using hlast
      cases hseg : segEntry f with
      | none => rw [hseg] at hf; simp at hf
      | some e =>
        rw [fillEntries_cons_some hseg]
        rw [if_neg (by simp at hb; omega)]
    | cons f' fs' =>
      have hlast2 : (segEntry ((f' :: fs').getLastD [])).isSome := by
        simpa using hlast
      cases hseg : segEntry f with
      | some e =>
        rw [fillEntries_cons_some hseg]
        by_cases hib : i < bound
        · rw [if_pos hib]
          exact ih (by simp) hlast2 (by simp at hb ⊢; omega)
        · rw [if_neg hib]
      | none =>
        rw [fillEntries_cons_none hseg]
        exact ih (by simp) hlast2 (by simp at hb ⊢; omega)

/-- C7: parseFileList maps the two-entry listing to its two entries, maps a
zero-size entry to a zero-valued placeholder at index 0, and in general any
returned list has one slot per raw split segment minus the trailing one, with
every slot whose segment fails to parse (as a positive size with a nonempty
path) left as the zero-valued placeholder at its original index. -/
theorem c7_parseFileList_placeholders :
    parseFileList (String.toList "/a.mp4:1000;/b.mp4:2000;")
      = some [⟨String.toList "/a.mp4", 1000⟩, ⟨String.toList "/b.mp4", 2000⟩]
    ∧ parseFileList (String.toList "/a.mp4:0;") = some [⟨[], 0⟩]
    ∧ ∀ (input : List Char) (l : List StoredFile),
        parseFileList input = some l →
          l.length = (splitOnChar ';' input).length - 1
          ∧ ∀ j, j < l.length → segEntry ((splitOnChar ';' input).getD j []) = none →
              l.getD j ⟨[], 0⟩ = ⟨[], 0⟩ := by
  refine ⟨by decide, by decide, fun input l h => ?_⟩
  dsimp only [parseFileList] at h
  have hlen : l.length = (splitOnChar ';' input).length - 1 := by
    rw [fillEntries_length h, List.length_replicate]
  refine ⟨hlen, fun j hj hfail => ?_⟩
  have hne := splitOnChar_ne_nil ';' input
  have hn1 : 1 ≤ (splitOnChar ';' input).length := by
    cases hs : splitOnChar ';' input with
    | nil => exact absurd hs hne
    | cons a b => simp
  have hjlt : j < (splitOnChar ';' input).length := by omega
  have := fillEntries_placeholder ⟨[], 0⟩ h j hjlt hfail
  simp only [Nat.zero_add] at this
  rw [this, List.getD_eq_getElem?_getD, List.getElem?_getD_replicate_default_eq]

/-- C7 witness: in the listing whose first entry has a non-numeric size, the
returned list keeps a placeholder at index 0 and has one slot per segment. -/
theorem c7_parseFileList_placeholders_witness :
    ([⟨[], 0⟩, ⟨String.toList "/y", 5⟩] : List StoredFile).length
        = (splitOnChar ';' (String.toList "/x:abc;/y:5;")).length - 1
    ∧ ([⟨[], 0⟩, ⟨String.toList "/y", 5⟩] : List StoredFile).getD 0 ⟨[], 0⟩ = ⟨[], 0⟩ :=
  ⟨((c7_parseFileList_placeholders.2.2 (String.toList "/x:abc;/y:5;")
      [⟨[], 0⟩, ⟨String.toList "/y", 5⟩] (by decide)).1),
   ((c7_parseFileList_placeholders.2.2 (String.toList "/x:abc;/y:5;")
      [⟨[], 0⟩, ⟨String.toList "/y", 5⟩] (by decide)).2 0 (by decide) (by decide))⟩

/-- C10: on an input that does not end with the terminal separator and whose
final segment parses as a nonempty path with a positive size, parseFileList
writes index len-1 of a slice of length len-1: the Go index-out-of-range
panic, modelled as `none`. -/
theorem c10_final_segment_panics (input : List Char)
    (_hend : input.getLast? ≠ some ';')
    (hparse : (segEntry ((splitOnChar ';' input).getLastD [])).isSome) :
    parseFileList input = none := by
  have hne := splitOnChar_ne_nil ';' input
  dsimp only [parseFileList]
  apply fillEntries_none_of_last hne hparse
  have hn1 : 1 ≤ (splitOnChar ';' input).length := by
    cases hs : splitOnChar ';' input with
    | nil => exact absurd hs hne
    | cons a b => simp
  omega

/-- C10 witness: the listing text without the trailing separator panics. -/
theorem c10_final_segment_panics_witness :
    parseFileList (String.toList "/a.mp4:1000") = none :=
  c10_final_segment_panics (String.toList "/a.mp4:1000") (by decide) (by decide)

/-- Dispatching under handlers that return no error keeps exactly the
handlers returning KeepHandler, in order. -/
theorem runHandlers_table_noErr {t : Nat} {l : List Handler} (b : Bool)
    (hne : ∀ x ∈ l, (handlerRun x.kind t).err = false) :
    (runHandlers b t l).table = l.filter (keepAfter t) := by
  induction l generalizing b with
  | nil => rfl
  | cons h hs ih =>
    have hr : (handlerRun h.kind t).err = false := hne h (by simp)
    have hne' : ∀ x ∈ hs, (handlerRun x.kind t).err = false := fun x hx => hne x (by simp [hx])
    simp only [runHandlers, hr, Bool.false_eq_true, if_false, List.filter_cons, keepAfter]
    rw [ih (b || (handlerRun h.kind t).setLogin) hne']
    rcases Bool.eq_false_or_eq_true ((handlerRun h.kind t).remove) with hrem | hrem <;>
      simp [hrem]

/-- Dispatching under handlers that return no error invokes every registered
handler, in registration order. -/
theorem runHandlers_fired_noErr {t : Nat} {l : List Handler} (b : Bool)
    (hne : ∀ x ∈ l, (handlerRun x.kind t).err = false) :
    (runHandlers b t l).fired = l.map Handler.hid := by
  induction l generalizing b with
  | nil => rfl
  | cons h hs ih =>
    have hr : (handlerRun h.kind t).err = false := hne h (by simp)
    have hne' : ∀ x ∈ hs, (handlerRun x.kind t).err = false := fun x hx => hne x (by simp [hx])
    simp only [runHandlers, hr, Bool.false_eq_true, if_false, List.map_cons]
    simp [ih (b || (handlerRun h.kind t).setLogin) hne']

/-- After the first dispatch the handler list is stable: every further
message of the same type sees the same list. -/
theorem roundsN_stable {t : Nat} {l : List Handler}
    (hne : ∀ x ∈ l, (handlerRun x.kind t).err = false) :
    ∀ n, 1 ≤ n → roundsN t l n = l.filter (keepAfter t) := by
  intro n hn
  induction n with
  | zero => omega
  | succ m ihm =>
    rcases Nat.eq_zero_or_pos m with hm | hm
    · subst hm
      simp only [roundsN]
      exact runHandlers_table_noErr false hne
    · have hne' : ∀ x ∈ l.filter (keepAfter t), (handlerRun x.kind t).err = false :=
        fun x hx => hne x (List.mem_filter.mp hx).1
      simp only [roundsN]
      rw [ihm hm, runHandlers_table_noErr false hne']
      simp [List.filter_filter]

/-- With distinct handler ids, a registered handler fires exactly once per
dispatch of the full list. -/
theorem count_hid_map {l : List Handler} {h : Handler}
    (hnd : (l.map Handler.hid).Nodup) (hmem : h ∈ l) :
    (l.map Handler.hid).count h.hid = 1 :=
  List.count_eq_one_of_mem hnd (List.mem_map_of_mem Handler.hid hmem)

/-- In the post-dispatch list a handler fires once more when kept and never
again when removed. -/
theorem count_hid_map_filter {t : Nat} {l : List Handler} {h : Handler}
    (hnd : (l.map Handler.hid).Nodup) (hmem : h ∈ l) :
    ((l.filter (keepAfter t)).map Handler.hid).count h.hid
      = if keepAfter t h then 1 else 0 := by
  by_cases hk : keepAfter t h
  · rw [if_pos hk]
    have hsub : List.Sublist ((l.filter (keepAfter t)).map Handler.hid) (l.map Handler.hid) :=
      List.Sublist.map Handler.hid (List.filter_sublist l)
    exact List.count_eq_one_of_mem (hsub.nodup hnd)
      (List.mem_map_of_mem Handler.hid (List.mem_filter.mpr ⟨hmem, hk⟩))
  · rw [if_neg hk]
    rw [List.count_eq_zero]
    intro hcontra
    rcases List.mem_map.mp hcontra with ⟨h', hh', hid_eq⟩
    have h'l := (List.mem_filter.mp hh').1
    have h'keep := (List.mem_filter.mp hh').2
    have : h' = h := List.inj_on_of_nodup_map hnd h'l hmem hid_eq
    rw [this] at h'keep
    exact hk h'keep

/-- Total invocation count of a handler across n consecutive messages of its
type: once for a one-shot handler, n times for a standing one. -/
theorem firedN_count {t : Nat} {l : List Handler} {h : Handler}
    (hne : ∀ x ∈ l, (handlerRun x.kind t).err = false)
    (hnd : (l.map Handler.hid).Nodup) (hmem : h ∈ l) :
    ∀ n, 1 ≤ n → (firedN t l n).count h.hid
      = if (handlerRun h.kind t).remove then 1 else n := by
  intro n hn
  induction n with
  | zero => omega
  | succ m ihm =>
    rcases Nat.eq_zero_or_pos m with hm | hm
    · subst hm
      simp only [firedN, roundsN, List.nil_append]
      rw [runHandlers_fired_noErr false hne, count_hid_map hnd hmem]
      rcases Bool.eq_false_or_eq_true ((handlerRun h.kind t).remove) with hrem | hrem <;>
        simp [hrem]
    · have hne' : ∀ x ∈ l.filter (keepAfter t), (handlerRun x.kind t).err = false :=
        fun x hx => hne x (List.mem_filter.mp hx).1
      simp only [firedN]
      rw [roundsN_stable hne m hm, runHandlers_fired_noErr false hne',
        List.count_append, ihm hm, count_hid_map_filter hnd hmem]
      rcases Bool.eq_false_or_eq_true ((handlerRun h.kind t).remove) with hrem | hrem <;>
        simp [hrem, keepAfter]

/-- C8: for handlers with distinct ids that return no error on type t,
dispatch fires them in registration order (Handle appends; a HandleFirst
registration runs first); a one-shot handler is absent from the table after
the first matching message and fires exactly once over any n ≥ 1 consecutive
messages of type t, while a standing handler is still in the table after n
messages and fires in every one of them. -/
theorem c8_handler_lifecycle (t : Nat) (l : List Handler) (g h : Handler) (n : Nat)
    (hne : ∀ x ∈ l, (handlerRun x.kind t).err = false)
    (hg : (handlerRun g.kind t).err = false)
    (hnd : (l.map Handler.hid).Nodup)
    (hmem : h ∈ l) (hn : 1 ≤ n) :
    (runHandlers false t l).fired = l.map Handler.hid
    ∧ (runHandlers false t (Handle g l)).fired = l.map Handler.hid ++ [g.hid]
    ∧ (runHandlers false t (HandleFirst g l)).fired = g.hid :: l.map Handler.hid
    ∧ ((handlerRun h.kind t).remove = true →
        (∀ m, 1 ≤ m → h ∉ roundsN t l m) ∧ (firedN t l n).count h.hid = 1)
    ∧ ((handlerRun h.kind t).remove = false →
        h ∈ roundsN t l n ∧ (firedN t l n).count h.hid = n) := by
  have hneApp : ∀ x ∈ Handle g l, (handlerRun x.kind t).err = false := by
    intro x hx
    rcases List.mem_append.mp hx with hx | hx
    · exact hne x hx
    · simp at hx
      rw [hx]
      exact hg
  have hnePre : ∀ x ∈ HandleFirst g l, (handlerRun x.kind t).err = false := by
    intro x hx
    rcases List.mem_cons.mp hx with hx | hx
    · rw [hx]; exact hg
    · exact hne x hx
  refine ⟨runHandlers_fired_noErr false hne, ?_, ?_, ?_, ?_⟩
  · rw [runHandlers_fired_noErr false hneApp]
    simp [Handle]
  · rw [runHandlers_fired_noErr false hnePre]
    simp [HandleFirst]
  · intro hrem
    constructor
    · intro m hm hcontra
      rw [roundsN_stable hne m hm] at hcontra
      have := (List.mem_filter.mp hcontra).2
      rw [keepAfter, hrem] at this
      simp at this
    · rw [firedN_count hne hnd hmem n hn, if_pos hrem]
  · intro hrem
    constructor
    · rw [roundsN_stable hne n hn]
      exact List.mem_filter.mpr ⟨hmem, by rw [keepAfter, hrem]; rfl⟩
    · rw [firedN_count hne hnd hmem n hn, if_neg (by rw [hrem]; simp)]

/-- C8 witness: a one-shot handler 1 and a standing handler 2 registered for
type 9, a prepended handler 3, across 3 consecutive messages. -/
theorem c8_handler_lifecycle_witness :
    (runHandlers false 9 [⟨1, HKind.stdh true false⟩, ⟨2, HKind.stdh false false⟩]).fired
        = [1, 2]
    ∧ (runHandlers false 9 (Handle ⟨3, HKind.stdh false false⟩
        [⟨1, HKind.stdh true false⟩, ⟨2, HKind.stdh false false⟩])).fired = [1, 2, 3]
    ∧ (runHandlers false 9 (HandleFirst ⟨3, HKind.stdh false false⟩
        [⟨1, HKind.stdh true false⟩, ⟨2, HKind.stdh false false⟩])).fired = [3, 1, 2]
    ∧ ((handlerRun (HKind.stdh true false) 9).remove = true →
        (∀ m, 1 ≤ m → (⟨1, HKind.stdh true false⟩ : Handler)
            ∉ roundsN 9 [⟨1, HKind.stdh true false⟩, ⟨2, HKind.stdh false false⟩] m)
        ∧ (firedN 9 [⟨1, HKind.stdh true false⟩, ⟨2, HKind.stdh false false⟩] 3).count 1 = 1)
    ∧ ((handlerRun (HKind.stdh true false) 9).remove = false →
        (⟨1, HKind.stdh true false⟩ : Handler)
            ∈ roundsN 9 [⟨1, HKind.stdh true false⟩, ⟨2, HKind.stdh false false⟩] 3
        ∧ (firedN 9 [⟨1, HKind.stdh true false⟩, ⟨2, HKind.stdh false false⟩] 3).count 1 = 3) :=
  c8_handler_lifecycle 9 [⟨1, HKind.stdh true false⟩, ⟨2, HKind.stdh false false⟩]
    ⟨3, HKind.stdh false false⟩ ⟨1, HKind.stdh true false⟩ 3
    (by decide) (by decide) (by decide) (by decide) (by decide)
